import Mathlib

/-!
Verification of the VGS benchmark harness (repository `TonyG13B/VGS1`,
directory `benchmark-testing/`).

The development shallowly embeds the three load-generation scripts:

* `smoke_bench.py`  — a single-threaded timed loop issuing HTTP posts,
  accumulating `ok` / `fail` counters and a latency list, and emitting a
  summary dictionary of derived metrics;
* `simple_benchmark.py` — a thread-pool harness (`run_benchmark_test`)
  whose workers call a mock service, plus a final report using Python's
  `statistics.quantiles`;
* `locustfile.py` — a locust user whose `post_transaction` task retries
  with exponential backoff and whose `get_round` task classifies
  responses of read operations.

Machine reals (Python floats) are embedded as exact rationals `ℚ`;
Python `sorted` is embedded as `List.insertionSort (· ≤ ·)`; code that
can raise an exception is embedded with `Option` (`none` = raises).
-/

namespace VGS

/-- Python's `sorted` on a list of numbers: sort ascending. -/
def pysorted (l : List ℚ) : List ℚ := l.insertionSort (· ≤ ·)

/-- Python's `round(q, 2)` (round half to even at two decimal places),
on exact rationals. -/
def pyRound2 (q : ℚ) : ℚ :=
  let z : ℤ := ⌊q * 100⌋
  let f : ℚ := q * 100 - z
  if f < 1/2 then (z : ℚ) / 100
  else if 1/2 < f then ((z : ℚ) + 1) / 100
  else if z % 2 = 0 then (z : ℚ) / 100 else ((z : ℚ) + 1) / 100

namespace SmokeBench

/-!
## `smoke_bench.py`

The main loop (lines 22–35):

```python
while time.time() < ended:
    ...
    t0 = time.time()
    try:
        with urllib.request.urlopen(req, timeout=2) as resp:
            if resp.status == 200:
                ok += 1
            else:
                fail += 1
    except Exception:
        fail += 1
    lat.append((time.time() - t0) * 1000.0)
```
-/

/-- What one iteration of the smoke-bench loop observes from the target:
a 200 response, a non-200 response (a domain/soft failure), or a raised
exception (transport error or timeout, a hard failure).  Each carries the
elapsed wall time `(time.time() - t0) * 1000.0` in milliseconds. -/
inductive IterObs where
  | ok200 (latMs : ℚ)
  | badStatus (latMs : ℚ)
  | exn (latMs : ℚ)
deriving DecidableEq, Repr

/-- The mutable module state of `smoke_bench.py`: counters `ok`, `fail`
and the latency list `lat`. -/
structure LoopState where
  ok : ℕ
  fail : ℕ
  lat : List ℚ
deriving DecidableEq, Repr

/-- One iteration of the loop body, lines 26–35: a 200 response bumps
`ok`, any other status bumps `fail`, an exception bumps `fail`; the
latency append on line 35 sits outside the `try` block and runs on every
iteration. -/
def loopStep (s : LoopState) : IterObs → LoopState
  | .ok200 l => { s with ok := s.ok + 1, lat := s.lat ++ [l] }
  | .badStatus l => { s with fail := s.fail + 1, lat := s.lat ++ [l] }
  | .exn l => { s with fail := s.fail + 1, lat := s.lat ++ [l] }

/-- The whole run: fold the loop body over the sequence of per-iteration
observations, starting from `ok = fail = 0`, `lat = []` (lines 10–11). -/
def loopRun (obs : List IterObs) : LoopState :=
  obs.foldl loopStep ⟨0, 0, []⟩

/-- Number of iterations that observed a non-200 response (the
soft-failure count of the run). -/
def softCount (obs : List IterObs) : ℕ :=
  (obs.filter fun o => match o with | .badStatus _ => true | _ => false).length

/-- The percentile expression `sorted(lat)[int(p * len(lat))]` of
lines 44–46 and 49 (out-of-range indexing defaults to `0`; the theorems
show the index is in range in every use the script makes). -/
def pct (p : ℚ) (lat : List ℚ) : ℚ :=
  (pysorted lat).getD (⌊p * lat.length⌋).toNat 0

/-- The numeric fields of the `summary` dictionary, lines 37–50. -/
structure Summary where
  rps : ℚ
  success_rate : ℚ
  error_rate : ℚ
  latency_p50_ms : ℚ
  latency_p95_ms : ℚ
  latency_p99_ms : ℚ
  write_success_pct : ℚ
  round_retrieval_p95_ms : ℚ
  http_request_p95_ms : ℚ
deriving Repr

/-- The `summary` dictionary built at lines 37–50 from the final
counters, the latency list, and the configured `DURATION`. -/
def summary (ok fail : ℕ) (lat : List ℚ) (duration : ℕ) : Summary where
  rps := if duration = 0 then 0 else (ok : ℚ) / duration
  success_rate := if ok + fail = 0 then 0 else (ok : ℚ) / (ok + fail)
  error_rate := if ok + fail = 0 then 0 else (fail : ℚ) / (ok + fail)
  latency_p50_ms := if lat = [] then 0 else pct (50/100) lat
  latency_p95_ms := if lat = [] then 0 else pct (95/100) lat
  latency_p99_ms := if lat = [] then 0 else pct (99/100) lat
  write_success_pct := if ok + fail = 0 then 0 else (ok : ℚ) / (ok + fail) * 100
  round_retrieval_p95_ms := 0
  http_request_p95_ms := if lat = [] then 0 else pct (95/100) lat

end SmokeBench

namespace SimpleBenchmark

/-!
## `simple_benchmark.py`

`run_benchmark_test` spawns `num_users` workers; each worker loops while
`time.time() < end_time`, calls `service.process_atomic_transaction`
(which either returns after `1–15ms` or raises), and records either a
success with its latency or a failure (lines 69–95).  The final report
(lines 114–144) uses `statistics.quantiles(latencies, n=100)` and
unguarded divisions by `total_requests` and `total_time`.
-/

/-- What one worker iteration observes from the mock service: a normal
return (with the measured request time in ms) or a raised exception. -/
inductive CallObs where
  | ret (latMs : ℚ)
  | exn
deriving DecidableEq, Repr

/-- The metric state shared by the workers: `successful_requests`,
`failed_requests` and the `latencies` list (lines 63–65). -/
structure Metrics where
  successful_requests : ℕ
  failed_requests : ℕ
  latencies : List ℚ
deriving DecidableEq, Repr

/-- One worker iteration's metric update (lines 80–94): a normal return
bumps the success counter and appends the latency; an exception bumps
the failure counter and appends nothing. -/
def workerStep (m : Metrics) : CallObs → Metrics
  | .ret l => { m with successful_requests := m.successful_requests + 1,
                       latencies := m.latencies ++ [l] }
  | .exn => { m with failed_requests := m.failed_requests + 1 }

/-- The metric state after a sequence of worker iterations, starting
from zero counters and an empty latency list (lines 63–65). -/
def workerRun (obs : List CallObs) : Metrics :=
  obs.foldl workerStep ⟨0, 0, []⟩

/-- The `i`-th cut point of Python's `statistics.quantiles` with
`method='exclusive'` over the sorted data `d`, following CPython:
`j = i*m // n` with `m = ld + 1`, then `j` is clamped to `[1, ld-1]`,
and only then `delta = i*m - j*n` (exact integer math, using the
clamped `j`, so `delta` can leave `[0, n]` and the interpolated value
`(d[j-1]*(n-delta) + d[j]*delta) / n` extrapolates past the sample
range when clamping occurred). -/
def quantPoint (d : List ℚ) (n i : ℕ) : ℚ :=
  let ld := d.length
  let j0 := i * (ld + 1) / n
  let j := if j0 < 1 then 1 else if ld - 1 < j0 then ld - 1 else j0
  let delta : ℤ := (i * (ld + 1) : ℤ) - (j * n : ℤ)
  (d.getD (j - 1) 0 * ((n : ℚ) - (delta : ℚ)) + d.getD j 0 * (delta : ℚ)) / n

/-- Python's `statistics.quantiles(data, n)` with the default
`method='exclusive'`: `none` when the sorted data has fewer than two
points (`StatisticsError`); otherwise the `n - 1` cut points
`quantPoint` for `i = 1, …, n-1`. -/
def quantiles (data : List ℚ) (n : ℕ) : Option (List ℚ) :=
  let d := pysorted data
  if d.length < 2 then none
  else some ((List.range (n - 1)).map fun i0 => quantPoint d n (i0 + 1))

/-- Python's `statistics.mean`: `none` on the empty list
(`StatisticsError`), otherwise the arithmetic mean. -/
def mean (data : List ℚ) : Option ℚ :=
  if data = [] then none else some (data.sum / data.length)

/-- Lines 118–124: `latency_p50 = quantiles(...)[49]`, `latency_p95 =
quantiles(...)[94]`, `latency_p99 = quantiles(...)[98]`, `avg_latency =
mean(latencies)` when `latencies` is non-empty, all four `0` otherwise.
`none` = the computation raises. -/
def percentileBlock (latencies : List ℚ) : Option (ℚ × ℚ × ℚ × ℚ) :=
  if latencies = [] then some (0, 0, 0, 0)
  else
    match quantiles latencies 100, mean latencies with
    | some qs, some avg => some (qs.getD 49 0, qs.getD 94 0, qs.getD 98 0, avg)
    | _, _ => none

/-- The numeric fields of the `results` dictionary, lines 127–144. -/
structure Results where
  total_requests : ℕ
  successful_requests : ℕ
  failed_requests : ℕ
  requests_per_second : ℚ
  success_rate : ℚ
  error_rate : ℚ
  avg_latency_ms : ℚ
  latency_p50_ms : ℚ
  latency_p95_ms : ℚ
  latency_p99_ms : ℚ
  meets_20ms_target : Bool
  write_success_pct : ℚ
deriving Repr

/-- The final report of `run_benchmark_test` (lines 114–144):
`total_requests = successful + failed`, plus the percentile block and
the derived rates.  The divisions by `total_time` (line 134) and by
`total_requests` (lines 135–136) have no zero guard, and
`statistics.quantiles` raises on a single sample, so the result is
`none` (an uncaught exception) in those cases. -/
def run_benchmark_results (succ failed : ℕ) (latencies : List ℚ)
    (total_time : ℚ) : Option Results :=
  let total := succ + failed
  match percentileBlock latencies with
  | none => none
  | some (p50, p95, p99, avg) =>
    if total_time = 0 then none
    else if total = 0 then none
    else some
      { total_requests := total
        successful_requests := succ
        failed_requests := failed
        requests_per_second := pyRound2 ((succ : ℚ) / total_time)
        success_rate := pyRound2 ((succ : ℚ) / total * 100)
        error_rate := pyRound2 ((failed : ℚ) / total * 100)
        avg_latency_ms := pyRound2 avg
        latency_p50_ms := pyRound2 p50
        latency_p95_ms := pyRound2 p95
        latency_p99_ms := pyRound2 p99
        meets_20ms_target := decide (p95 ≤ 20)
        write_success_pct := pyRound2 ((succ : ℚ) / total * 100) }

end SimpleBenchmark

namespace Locustfile

/-!
## `locustfile.py`

`VGSUser.post_transaction` (lines 37–97) wraps one logical write in a
bounded retry loop with `max_retries = 3`:

```python
for attempt in range(max_retries):
    try:
        with self.client.post(...) as response:
            if response.status_code == 200:
                if result.get("success"): response.success(); break
                else:
                    if attempt == max_retries - 1: response.failure(...)
                    else: time.sleep(0.1 * (2 ** attempt))
            elif response.status_code == 404:
                self.create_round_if_needed()
                if attempt == max_retries - 1: response.failure(...)
            else:
                if attempt == max_retries - 1: response.failure(...)
                else: time.sleep(0.1 * (2 ** attempt))
    except Exception as e:
        if attempt == max_retries - 1: ...request_failure.fire(...)
        else: time.sleep(0.1 * (2 ** attempt))
```

`VGSUser.get_round` (lines 120–143) classifies a read response.
-/

/-- What one attempt of `post_transaction` observes: a 200 response
whose JSON `success` flag is true or false, a 404, some other status, or
a raised exception. -/
inductive AttemptObs where
  | ok200 (succFlag : Bool)
  | http404
  | httpOther (code : ℕ)
  | exn
deriving DecidableEq, Repr

/-- Terminal classification of one logical operation: `success`
(`response.success()`), `softFailure` (`response.failure(...)` on a
received response), `hardFailure` (`request_failure.fire` after an
exception on the last attempt). -/
inductive Outcome where
  | success
  | softFailure
  | hardFailure
deriving DecidableEq, Repr

/-- Observable log of one `post_transaction` execution: how many
attempts ran, the backoff sleeps performed — each recorded as
`(k, seconds)` where `k` is the 1-based ordinal of the attempt the
sleep immediately precedes — and the terminal outcome (`none` only when
the attempt cap is `0` and the loop body never runs). -/
structure ExecLog where
  attemptsMade : ℕ
  sleeps : List (ℕ × ℚ)
  outcome : Option Outcome
deriving DecidableEq, Repr

/-- The retry loop of `post_transaction`, lines 50–89.  `i` is Python's
0-based `attempt` loop variable, `fuel` the number of attempts still
allowed (`max_retries - i`); `attempt == max_retries - 1` is `fuel = 0`
inside the successor case.  A sleep of `base * 2 ^ i` seconds follows a
failed attempt `i` (i.e. precedes the attempt with 1-based ordinal
`i + 2`) in the domain-failure, other-status and exception branches; the
404 branch retries immediately after `create_round_if_needed()`. -/
def postLoop (base : ℚ) (obs : ℕ → AttemptObs) : ℕ → ℕ → ExecLog
  | _, 0 => ⟨0, [], none⟩
  | i, fuel + 1 =>
    match obs i with
    | .ok200 true => ⟨1, [], some .success⟩
    | .ok200 false =>
      if fuel = 0 then ⟨1, [], some .softFailure⟩
      else
        let rest := postLoop base obs (i + 1) fuel
        ⟨rest.attemptsMade + 1, (i + 2, base * 2 ^ i) :: rest.sleeps, rest.outcome⟩
    | .http404 =>
      if fuel = 0 then ⟨1, [], some .softFailure⟩
      else
        let rest := postLoop base obs (i + 1) fuel
        ⟨rest.attemptsMade + 1, rest.sleeps, rest.outcome⟩
    | .httpOther _ =>
      if fuel = 0 then ⟨1, [], some .softFailure⟩
      else
        let rest := postLoop base obs (i + 1) fuel
        ⟨rest.attemptsMade + 1, (i + 2, base * 2 ^ i) :: rest.sleeps, rest.outcome⟩
    | .exn =>
      if fuel = 0 then ⟨1, [], some .hardFailure⟩
      else
        let rest := postLoop base obs (i + 1) fuel
        ⟨rest.attemptsMade + 1, (i + 2, base * 2 ^ i) :: rest.sleeps, rest.outcome⟩

/-- One full `post_transaction` call: run the retry loop from attempt 0
with `maxRetries` attempts allowed.  The source fixes `base = 0.1`
seconds and `maxRetries = 3` (lines 49, 69). -/
def post_transaction (base : ℚ) (maxRetries : ℕ) (obs : ℕ → AttemptObs) : ExecLog :=
  postLoop base obs 0 maxRetries

/-- What one `get_round` call observes: a status code or an exception. -/
inductive ReadObs where
  | status (code : ℕ)
  | exn
deriving DecidableEq, Repr

/-- Embeds `VGSUser.get_round`, lines 124–143: `200 → response.success()`,
`404 → response.success()` (the source comment reads: Round not found
is acceptable for new rounds), any other status `→ response.failure(...)`,
an exception `→ request_failure.fire`. -/
def get_round : ReadObs → Outcome
  | .status c => if c = 200 then .success else if c = 404 then .success else .softFailure
  | .exn => .hardFailure

end Locustfile

namespace Worker

/-!
## The deadline loop shared by `smoke_bench.py` and `simple_benchmark.py`

Both harnesses run each worker as `while time.time() < end_time: <one
logical operation>; <think-time sleep>` (`smoke_bench.py` lines 22–35
with zero think time, `simple_benchmark.py` lines 69–95 with
`time.sleep(random.uniform(0.01, 0.05))`).  The deadline is checked
only at the top of the loop; once an operation has started it runs to
completion.
-/

/-- One prospective loop iteration: the wall time the whole logical
operation would take, and the think-time sleep after it. -/
structure Op where
  dur : ℚ
  think : ℚ
deriving DecidableEq, Repr

/-- The worker loop: at current time `t`, if `t < deadline` the next
operation starts at `t`, runs for its full duration, is followed by its
think time, and the loop repeats; otherwise the worker stops.  Returns
the `(startTime, endTime)` of every operation actually executed. -/
def loopOps (deadline : ℚ) : ℚ → List Op → List (ℚ × ℚ)
  | _, [] => []
  | t, op :: rest =>
    if t < deadline then
      (t, t + op.dur) :: loopOps deadline (t + op.dur + op.think) rest
    else []

end Worker

namespace LockModel

/-!
## The metric update of `simple_benchmark.py`, lines 84–94

```python
with threading.Lock():
    successful_requests += 1
    latencies.append(request_time)
```

`threading.Lock()` constructs a *new* lock object at every execution,
so each worker acquires a lock no other worker ever touches.  We model
two workers each performing one counter increment as the four atomic
steps acquire / load / store / release, under two semantics: the
code's (a fresh lock per call, acquisition never blocks) and the
spec's (one shared lock providing mutual exclusion). -/

/-- Program counter of one worker's record operation. -/
inductive Pc where
  | acq
  | load
  | store
  | rel
  | done
deriving DecidableEq, Repr

/-- One worker: its program counter and the value it loaded. -/
structure Th where
  pc : Pc
  lv : ℕ
deriving DecidableEq, Repr

/-- Two workers, the shared counter, and (for the shared-lock
semantics) which worker currently holds the lock. -/
structure Sys where
  a : Th
  b : Th
  counter : ℕ
  held : Option Bool
deriving DecidableEq, Repr

/-- One atomic step of worker `who` (`false` = `a`, `true` = `b`).
With `sharedLock = false` (the code as written: `with threading.Lock()`
creates a fresh lock) acquisition always succeeds; with
`sharedLock = true` (one lock shared by all workers) acquisition is
enabled only while no other worker holds it.  `none` = the step cannot
be taken. -/
def stepThread (sharedLock : Bool) (s : Sys) (who : Bool) : Option Sys :=
  let t := if who then s.b else s.a
  let put : Th → Sys := fun th => if who then { s with b := th } else { s with a := th }
  match t.pc with
  | .acq =>
    if sharedLock then
      match s.held with
      | none => some { put { t with pc := .load } with held := some who }
      | some _ => none
    else some (put { t with pc := .load })
  | .load => some (put { t with pc := .store, lv := s.counter })
  | .store => some { put { t with pc := .rel } with counter := t.lv + 1 }
  | .rel =>
    if sharedLock then some { put { t with pc := .done } with held := none }
    else some (put { t with pc := .done })
  | .done => none

/-- Run a schedule (the sequence of worker choices); `none` when some
scheduled step is blocked. -/
def runSched (sharedLock : Bool) : Sys → List Bool → Option Sys
  | s, [] => some s
  | s, w :: ws =>
    match stepThread sharedLock s w with
    | none => none
    | some s2 => runSched sharedLock s2 ws

/-- Both workers about to record, counter `0`, lock free. -/
def init : Sys := ⟨⟨.acq, 0⟩, ⟨.acq, 0⟩, 0, none⟩

end LockModel

/-!
## Helper lemmas
-/

theorem smoke_foldl_counts (obs : List SmokeBench.IterObs) (s : SmokeBench.LoopState) :
    (obs.foldl SmokeBench.loopStep s).ok + (obs.foldl SmokeBench.loopStep s).fail
      = s.ok + s.fail + obs.length := by
  induction obs generalizing s with
  | nil => simp
  | cons o rest ih =>
    cases o <;> simp only [List.foldl_cons, SmokeBench.loopStep, List.length_cons, ih] <;> omega

theorem smoke_foldl_lat (obs : List SmokeBench.IterObs) (s : SmokeBench.LoopState) :
    (obs.foldl SmokeBench.loopStep s).lat.length = s.lat.length + obs.length := by
  induction obs generalizing s with
  | nil => simp
  | cons o rest ih =>
    cases o <;> simp [SmokeBench.loopStep, ih] <;> omega

theorem simple_foldl_counts (obs : List SimpleBenchmark.CallObs) (m : SimpleBenchmark.Metrics) :
    (obs.foldl SimpleBenchmark.workerStep m).successful_requests
      + (obs.foldl SimpleBenchmark.workerStep m).failed_requests
      = m.successful_requests + m.failed_requests + obs.length := by
  induction obs generalizing m with
  | nil => simp
  | cons o rest ih =>
    cases o <;>
      simp only [List.foldl_cons, SimpleBenchmark.workerStep, List.length_cons, ih] <;> omega

theorem simple_foldl_lat (obs : List SimpleBenchmark.CallObs) (m : SimpleBenchmark.Metrics) :
    (obs.foldl SimpleBenchmark.workerStep m).latencies.length
      + m.successful_requests
      = (obs.foldl SimpleBenchmark.workerStep m).successful_requests
      + m.latencies.length := by
  induction obs generalizing m with
  | nil => simp only [List.foldl_nil]; omega
  | cons o rest ih =>
    cases o with
    | ret l =>
      have h := ih { successful_requests := m.successful_requests + 1,
                     failed_requests := m.failed_requests,
                     latencies := m.latencies ++ [l] }
      simp only [List.foldl_cons, SimpleBenchmark.workerStep]
      simp only [List.length_append, List.length_singleton] at h
      omega
    | exn =>
      have h := ih { successful_requests := m.successful_requests,
                     failed_requests := m.failed_requests + 1,
                     latencies := m.latencies }
      dsimp only at h
      simp only [List.foldl_cons, SimpleBenchmark.workerStep]
      omega

theorem getD_map_range (f : ℕ → ℚ) (k i : ℕ) (h : i < k) :
    ((List.range k).map f).getD i 0 = f i := by
  rw [List.getD_eq_getElem?_getD, List.getElem?_map, List.getElem?_range h]
  rfl

theorem pysorted_length (l : List ℚ) : (pysorted l).length = l.length :=
  (List.perm_insertionSort _ l).length_eq

theorem quantiles_eval (data : List ℚ) (h2 : 2 ≤ data.length) (n : ℕ) :
    SimpleBenchmark.quantiles data n
      = some ((List.range (n - 1)).map fun i0 =>
          SimpleBenchmark.quantPoint (pysorted data) n (i0 + 1)) := by
  simp only [SimpleBenchmark.quantiles]
  rw [if_neg (by rw [pysorted_length]; omega)]

theorem percentileBlock_eval (lats : List ℚ) (h2 : 2 ≤ lats.length) :
    SimpleBenchmark.percentileBlock lats
      = some (SimpleBenchmark.quantPoint (pysorted lats) 100 50,
              SimpleBenchmark.quantPoint (pysorted lats) 100 95,
              SimpleBenchmark.quantPoint (pysorted lats) 100 99,
              lats.sum / lats.length) := by
  have hne : lats ≠ [] := by
    intro h
    rw [h] at h2
    simp at h2
  simp only [SimpleBenchmark.percentileBlock, SimpleBenchmark.mean, if_neg hne,
    quantiles_eval lats h2]
  rw [getD_map_range _ _ _ (by norm_num), getD_map_range _ _ _ (by norm_num),
    getD_map_range _ _ _ (by norm_num)]

theorem percentileBlock_single (x : ℚ) :
    SimpleBenchmark.percentileBlock [x] = none := rfl

theorem run_results_eval (succ failed : ℕ) (lats : List ℚ) (t : ℚ)
    (p50 p95 p99 avg : ℚ)
    (hpb : SimpleBenchmark.percentileBlock lats = some (p50, p95, p99, avg))
    (ht : t ≠ 0) (htot : succ + failed ≠ 0) :
    SimpleBenchmark.run_benchmark_results succ failed lats t = some
      { total_requests := succ + failed
        successful_requests := succ
        failed_requests := failed
        requests_per_second := pyRound2 ((succ : ℚ) / t)
        success_rate := pyRound2 ((succ : ℚ) / ((succ + failed : ℕ) : ℚ) * 100)
        error_rate := pyRound2 ((failed : ℚ) / ((succ + failed : ℕ) : ℚ) * 100)
        avg_latency_ms := pyRound2 avg
        latency_p50_ms := pyRound2 p50
        latency_p95_ms := pyRound2 p95
        latency_p99_ms := pyRound2 p99
        meets_20ms_target := decide (p95 ≤ 20)
        write_success_pct := pyRound2 ((succ : ℚ) / ((succ + failed : ℕ) : ℚ) * 100) } := by
  simp only [SimpleBenchmark.run_benchmark_results, hpb]
  rw [if_neg ht, if_neg htot]

theorem run_results_one_one_empty :
    SimpleBenchmark.run_benchmark_results 1 1 [] 1
      = some ⟨2, 1, 1, 1, 50, 50, 0, 0, 0, 0, true, 50⟩ := by
  rw [run_results_eval 1 1 [] 1 0 0 0 0 rfl (by norm_num) (by norm_num)]
  norm_num [pyRound2, SimpleBenchmark.Results.mk.injEq]

theorem percentileBlock_isSome (lats : List ℚ) :
    (SimpleBenchmark.percentileBlock lats).isSome = true ↔ lats.length ≠ 1 := by
  rcases lats with _ | ⟨x, rest⟩
  · simp [SimpleBenchmark.percentileBlock]
  · rcases rest with _ | ⟨y, rest2⟩
    · simp [percentileBlock_single]
    · rw [percentileBlock_eval _ (by simp)]
      simp

/-!
## Claim theorems
-/

/-- C1: for every run, the success and failure counters sum to the total
number of logical operations attempted — in `smoke_bench.py`
`ok + fail` equals the number of loop iterations (each iteration bumps
exactly one of the two counters), in `simple_benchmark.py`
`successful_requests + failed_requests` equals the number of worker
iterations, and the `total_requests` field of the final report is that
sum.  Quantifying over every observation sequence covers every prefix
of a run, i.e. the invariant holds at all times. -/
theorem counters_sum_to_total :
    (∀ obs : List SmokeBench.IterObs,
      (SmokeBench.loopRun obs).ok + (SmokeBench.loopRun obs).fail = obs.length) ∧
    (∀ obs : List SimpleBenchmark.CallObs,
      (SimpleBenchmark.workerRun obs).successful_requests
        + (SimpleBenchmark.workerRun obs).failed_requests = obs.length) ∧
    (∀ (succ failed : ℕ) (lats : List ℚ) (t : ℚ) (r : SimpleBenchmark.Results),
      SimpleBenchmark.run_benchmark_results succ failed lats t = some r →
      r.total_requests = succ + failed) := by
  refine ⟨fun obs => ?_, fun obs => ?_, fun succ failed lats t r h => ?_⟩
  · simpa using smoke_foldl_counts obs ⟨0, 0, []⟩
  · simpa using simple_foldl_counts obs ⟨0, 0, []⟩
  · rcases hpb : SimpleBenchmark.percentileBlock lats with _ | ⟨⟨p50, p95, p99, avg⟩⟩ <;>
      simp only [SimpleBenchmark.run_benchmark_results, hpb] at h
    · exact absurd h (by simp)
    · by_cases h1 : t = 0
      · rw [if_pos h1] at h; exact absurd h (by simp)
      · rw [if_neg h1] at h
        by_cases h2 : succ + failed = 0
        · rw [if_pos h2] at h; exact absurd h (by simp)
        · rw [if_neg h2] at h
          obtain rfl : _ = r := Option.some.inj h
          rfl

/-- C1 (witness): two smoke-bench iterations (one success, one hard
failure) give `ok + fail = 2`; two worker iterations give
`successful + failed = 2`; and the concrete final report for one
success and one failure has `total_requests = 1 + 1`. -/
theorem counters_sum_to_total_witness :
    (SmokeBench.loopRun [.ok200 5, .exn 7]).ok
        + (SmokeBench.loopRun [.ok200 5, .exn 7]).fail = 2 ∧
    (SimpleBenchmark.workerRun [.ret 3, .exn]).successful_requests
        + (SimpleBenchmark.workerRun [.ret 3, .exn]).failed_requests = 2 ∧
    (⟨2, 1, 1, 1, 50, 50, 0, 0, 0, 0, true, 50⟩ :
        SimpleBenchmark.Results).total_requests = 1 + 1 :=
  ⟨counters_sum_to_total.1 [.ok200 5, .exn 7],
   counters_sum_to_total.2.1 [.ret 3, .exn],
   counters_sum_to_total.2.2 1 1 [] 1 _ run_results_one_one_empty⟩

/-- C2 (counterexample): `simple_benchmark.py` reports percentiles via
`statistics.quantiles(latencies, n=100)`, not via the rank statistic
`sorted(lat)[floor(p*n)]`.  On the latency list `[10, 20]` the reported
p50 is the interpolated `15` (and the clamped-then-extrapolated p95 and
p99 are `28.5` and `29.7`, beyond the sample maximum), while the
element at 0-indexed rank `floor(0.50 * 2) = 1` of the sorted list is
`20`. -/
theorem quantile_p50_differs_from_rank :
    SimpleBenchmark.percentileBlock [10, 20] = some (15, 57/2, 297/10, 15) ∧
    (pysorted [10, 20]).getD (⌊(50/100 : ℚ) * (([10, 20] : List ℚ).length : ℚ)⌋).toNat 0 = 20 ∧
    (15 : ℚ) ≠ 20 := by
  have hs : pysorted [10, 20] = [10, 20] := rfl
  refine ⟨?_, ?_, by norm_num⟩
  · rw [percentileBlock_eval _ (by norm_num), hs]
    norm_num [SimpleBenchmark.quantPoint, List.getD]
  · rw [hs]
    norm_num [List.getD]

/-- C2 (amended): in `smoke_bench.py` the reported percentile for a
non-empty latency list and `p ∈ (0,1)` is the element at 0-indexed rank
`floor(p * n)` of the latency list sorted ascending (the index is in
range, and the sorted list is an ascending permutation of the
samples); `simple_benchmark.py` instead reports interpolated
`statistics.quantiles` values, which can differ from that rank
statistic. -/
theorem smoke_pct_is_rank_statistic (lat : List ℚ) (p : ℚ)
    (hne : lat ≠ []) (h0 : 0 < p) (h1 : p < 1) :
    ∃ hlt : (⌊p * (lat.length : ℚ)⌋).toNat < (pysorted lat).length,
      SmokeBench.pct p lat
          = (pysorted lat).get ⟨(⌊p * (lat.length : ℚ)⌋).toNat, hlt⟩ ∧
      List.Sorted (· ≤ ·) (pysorted lat) ∧ (pysorted lat).Perm lat := by
  have hn : 0 < lat.length := List.length_pos.mpr hne
  have hflt : ⌊p * (lat.length : ℚ)⌋ < (lat.length : ℤ) := by
    apply Int.floor_lt.mpr
    push_cast
    calc p * (lat.length : ℚ) < 1 * (lat.length : ℚ) :=
          mul_lt_mul_of_pos_right h1 (by exact_mod_cast hn)
      _ = (lat.length : ℚ) := one_mul _
  have hge : (0 : ℤ) ≤ ⌊p * (lat.length : ℚ)⌋ := by
    apply Int.floor_nonneg.mpr
    positivity
  have hlt : (⌊p * (lat.length : ℚ)⌋).toNat < (pysorted lat).length := by
    rw [pysorted_length]
    omega
  refine ⟨hlt, ?_, List.sorted_insertionSort _ _, List.perm_insertionSort _ _⟩
  rw [SmokeBench.pct, List.getD_eq_getElem _ _ hlt]
  simp

/-- C2 (witness): on the latency list `[3, 7]` with `p = 1/2` the
reported percentile is the sorted sample at rank `floor(1/2 * 2) = 1`. -/
theorem smoke_pct_is_rank_statistic_witness :
    ∃ hlt : (⌊(1/2 : ℚ) * ((([3, 7] : List ℚ).length : ℚ))⌋).toNat < (pysorted [3, 7]).length,
      SmokeBench.pct (1/2) [3, 7]
          = (pysorted [3, 7]).get ⟨(⌊(1/2 : ℚ) * ((([3, 7] : List ℚ).length : ℚ))⌋).toNat, hlt⟩ ∧
      List.Sorted (· ≤ ·) (pysorted [3, 7]) ∧ (pysorted [3, 7]).Perm [3, 7] :=
  smoke_pct_is_rank_statistic [3, 7] (1/2) (by simp) (by norm_num) (by norm_num)

/-- C3 (counterexample): when no data was recorded
(`successful = failed = 0`, empty latency list, a sub-millisecond
elapsed time), computing `simple_benchmark.py`'s final report raises
(`successful_requests / total_requests` divides by zero at line 135):
the summary is not produced at all, rather than reporting zeros. -/
theorem run_results_raises_on_no_data :
    SimpleBenchmark.run_benchmark_results 0 0 [] (1/1000) = none := by
  simp only [SimpleBenchmark.run_benchmark_results,
    show SimpleBenchmark.percentileBlock [] = some (0, 0, 0, 0) from rfl]
  rw [if_neg (by norm_num : ¬(1/1000 : ℚ) = 0)]
  rfl

/-- C3 (amended): `smoke_bench.py`'s summary is a total function whose
percentile fields are all `0` on an empty latency list and whose fields
are all `0` when nothing was recorded.  `simple_benchmark.py`'s final
report is produced exactly when at least one request was counted, the
elapsed time is non-zero, and the latency list does not have exactly
one element; otherwise the computation raises (`ZeroDivisionError` on
`total_requests = 0`, `StatisticsError` from `statistics.quantiles` on
a single sample). -/
theorem summary_totality :
    (∀ ok fail d, (SmokeBench.summary ok fail [] d).latency_p50_ms = 0 ∧
      (SmokeBench.summary ok fail [] d).latency_p95_ms = 0 ∧
      (SmokeBench.summary ok fail [] d).latency_p99_ms = 0 ∧
      (SmokeBench.summary ok fail [] d).http_request_p95_ms = 0) ∧
    (∀ d, SmokeBench.summary 0 0 [] d = ⟨0, 0, 0, 0, 0, 0, 0, 0, 0⟩) ∧
    (∀ (succ failed : ℕ) (lats : List ℚ) (t : ℚ),
      (SimpleBenchmark.run_benchmark_results succ failed lats t).isSome = true
        ↔ succ + failed ≠ 0 ∧ t ≠ 0 ∧ lats.length ≠ 1) := by
  refine ⟨fun ok fail d => ⟨rfl, rfl, rfl, rfl⟩, fun d => ?_, fun succ failed lats t => ?_⟩
  · by_cases h : d = 0 <;>
      simp [SmokeBench.summary, h, SmokeBench.Summary.mk.injEq]
  · rcases hpb : SimpleBenchmark.percentileBlock lats with _ | ⟨⟨p50, p95, p99, avg⟩⟩
    · have hlen : lats.length = 1 := by
        have h := percentileBlock_isSome lats
        rw [hpb] at h
        simpa using h
      simp only [SimpleBenchmark.run_benchmark_results, hpb]
      simp [hlen]
    · have hlen : lats.length ≠ 1 := by
        have h := percentileBlock_isSome lats
        rw [hpb] at h
        simpa using h
      simp only [SimpleBenchmark.run_benchmark_results, hpb]
      by_cases ht : t = 0
      · simp [ht]
      · by_cases htot : succ + failed = 0
        · simp [ht, htot]
        · simp [ht, htot, hlen]

/-- C3 (witness): at `ok = fail = 0` and duration `10` the smoke-bench
summary is the all-zero record, and the report of a run with one
success, one failure, no latency samples and elapsed time `1` is
produced (`isSome`). -/
theorem summary_totality_witness :
    SmokeBench.summary 0 0 [] 10 = ⟨0, 0, 0, 0, 0, 0, 0, 0, 0⟩ ∧
    ((SimpleBenchmark.run_benchmark_results 1 1 [] 1).isSome = true
      ↔ 1 + 1 ≠ 0 ∧ (1 : ℚ) ≠ 0 ∧ ([] : List ℚ).length ≠ 1) :=
  ⟨summary_totality.2.1 10, summary_totality.2.2 1 1 [] 1⟩

/-- C6 (counterexample): in `smoke_bench.py` the latency append on line
35 sits outside the `try` block, so a run consisting of one hard
failure (an exception) records one latency sample although
`success + soft_failure = 0`; the claimed identity
`len(latencies) = success_count + soft_failure_count` fails. -/
theorem smoke_latency_on_hard_failure :
    (SmokeBench.loopRun [.exn 5]).lat.length
      ≠ (SmokeBench.loopRun [.exn 5]).ok + SmokeBench.softCount [.exn 5] := by
  decide

/-- C6 (amended): in `simple_benchmark.py` the latency list length
equals the success count (there are no soft failures there, so this is
`success + soft_failure`); in `smoke_bench.py` a latency is appended on
every iteration — hard failures included — so the latency list length
equals the total iteration count `ok + fail`, not `ok + soft`. -/
theorem latency_list_length :
    (∀ obs : List SimpleBenchmark.CallObs,
      (SimpleBenchmark.workerRun obs).latencies.length
        = (SimpleBenchmark.workerRun obs).successful_requests) ∧
    (∀ obs : List SmokeBench.IterObs,
      (SmokeBench.loopRun obs).lat.length
        = (SmokeBench.loopRun obs).ok + (SmokeBench.loopRun obs).fail) := by
  constructor
  · intro obs
    have h := simple_foldl_lat obs ⟨0, 0, []⟩
    simpa [SimpleBenchmark.workerRun] using h
  · intro obs
    have h1 := smoke_foldl_lat obs ⟨0, 0, []⟩
    have h2 := smoke_foldl_counts obs ⟨0, 0, []⟩
    simp only [List.length_nil] at h1 h2
    simp only [SmokeBench.loopRun]
    omega

/-- C4 (counterexample): with `base = 0.1` and a first attempt that
raises, `post_transaction` sleeps exactly once, before the second
attempt, for `0.1 * 2^0 = 0.1` seconds — not the claimed
`base * 2^(k-1) = 0.1 * 2^(2-1) = 0.2` seconds for attempt `k = 2`. -/
theorem backoff_before_second_attempt :
    (Locustfile.post_transaction (1/10) 3
        (fun n => if n = 0 then .exn else .ok200 true)).sleeps
      = [(2, (1/10 : ℚ) * 2 ^ 0)] ∧
    ((1/10 : ℚ) * 2 ^ 0) ≠ (1/10) * 2 ^ (2 - 1) := by
  exact ⟨rfl, by norm_num⟩

theorem postLoop_attempts_le (base : ℚ) (obs : ℕ → Locustfile.AttemptObs)
    (i fuel : ℕ) : (Locustfile.postLoop base obs i fuel).attemptsMade ≤ fuel := by
  induction fuel generalizing i with
  | zero => exact le_refl 0
  | succ n ih =>
    unfold Locustfile.postLoop
    rcases hobs : obs i with b | _ | c | _ <;> dsimp only
    · cases b <;> dsimp only
      · by_cases h : n = 0
        · rw [if_pos h]
          exact Nat.le_add_left 1 n
        · rw [if_neg h]
          exact Nat.add_le_add_right (ih (i + 1)) 1
      · exact Nat.le_add_left 1 n
    all_goals
      rcases Nat.eq_zero_or_pos n with h | h
    · rw [if_pos h]
      exact Nat.le_add_left 1 n
    · rw [if_neg (Nat.pos_iff_ne_zero.mp h)]
      exact Nat.add_le_add_right (ih (i + 1)) 1
    · rw [if_pos h]
      exact Nat.le_add_left 1 n
    · rw [if_neg (Nat.pos_iff_ne_zero.mp h)]
      exact Nat.add_le_add_right (ih (i + 1)) 1
    · rw [if_pos h]
      exact Nat.le_add_left 1 n
    · rw [if_neg (Nat.pos_iff_ne_zero.mp h)]
      exact Nat.add_le_add_right (ih (i + 1)) 1

theorem postLoop_sleeps (base : ℚ) (obs : ℕ → Locustfile.AttemptObs)
    (i fuel : ℕ) (pr : ℕ × ℚ) (hm : pr ∈ (Locustfile.postLoop base obs i fuel).sleeps) :
    i + 2 ≤ pr.1 ∧ pr.2 = base * 2 ^ (pr.1 - 2) := by
  induction fuel generalizing i with
  | zero => simp [Locustfile.postLoop] at hm
  | succ n ih =>
    unfold Locustfile.postLoop at hm
    rcases hobs : obs i with b | _ | c | _ <;> rw [hobs] at hm
    · cases b <;> dsimp only at hm
      · by_cases h : n = 0
        · rw [if_pos h] at hm
          simp at hm
        · rw [if_neg h] at hm
          dsimp only at hm
          rcases List.mem_cons.mp hm with h1 | h2
          · subst h1
            exact ⟨le_refl _, by simp⟩
          · obtain ⟨hle, he⟩ := ih (i + 1) h2
            exact ⟨by omega, he⟩
      · simp at hm
    · dsimp only at hm
      by_cases h : n = 0
      · rw [if_pos h] at hm
        simp at hm
      · rw [if_neg h] at hm
        dsimp only at hm
        obtain ⟨hle, he⟩ := ih (i + 1) hm
        exact ⟨by omega, he⟩
    · dsimp only at hm
      by_cases h : n = 0
      · rw [if_pos h] at hm
        simp at hm
      · rw [if_neg h] at hm
        dsimp only at hm
        rcases List.mem_cons.mp hm with h1 | h2
        · subst h1
          exact ⟨le_refl _, by simp⟩
        · obtain ⟨hle, he⟩ := ih (i + 1) h2
          exact ⟨by omega, he⟩
    · dsimp only at hm
      by_cases h : n = 0
      · rw [if_pos h] at hm
        simp at hm
      · rw [if_neg h] at hm
        dsimp only at hm
        rcases List.mem_cons.mp hm with h1 | h2
        · subst h1
          exact ⟨le_refl _, by simp⟩
        · obtain ⟨hle, he⟩ := ih (i + 1) h2
          exact ⟨by omega, he⟩

theorem postLoop_failure_exhausts (base : ℚ) (obs : ℕ → Locustfile.AttemptObs)
    (i fuel : ℕ) (oc : Locustfile.Outcome)
    (hoc : (Locustfile.postLoop base obs i fuel).outcome = some oc)
    (hns : oc ≠ .success) :
    (Locustfile.postLoop base obs i fuel).attemptsMade = fuel := by
  induction fuel generalizing i with
  | zero => simp [Locustfile.postLoop] at hoc
  | succ n ih =>
    unfold Locustfile.postLoop at hoc ⊢
    rcases hobs : obs i with b | _ | c | _ <;> rw [hobs] at hoc
    · cases b <;> dsimp only at hoc ⊢
      · by_cases h : n = 0
        · rw [if_pos h]
          rw [h]
        · rw [if_neg h] at hoc ⊢
          dsimp only at hoc ⊢
          rw [ih (i + 1) hoc]
      · exact absurd (Option.some.inj hoc).symm hns
    · dsimp only at hoc ⊢
      by_cases h : n = 0
      · rw [if_pos h]
        rw [h]
      · rw [if_neg h] at hoc ⊢
        dsimp only at hoc ⊢
        rw [ih (i + 1) hoc]
    · dsimp only at hoc ⊢
      by_cases h : n = 0
      · rw [if_pos h]
        rw [h]
      · rw [if_neg h] at hoc ⊢
        dsimp only at hoc ⊢
        rw [ih (i + 1) hoc]
    · dsimp only at hoc ⊢
      by_cases h : n = 0
      · rw [if_pos h]
        rw [h]
      · rw [if_neg h] at hoc ⊢
        dsimp only at hoc ⊢
        rw [ih (i + 1) hoc]

/-- C4 (amended): `post_transaction` makes at most `max_retries`
attempts; every backoff sleep recorded before (1-based) attempt `k`
satisfies `k ≥ 2` and lasts `base * 2 ^ (k - 2)` seconds (the code
sleeps `0.1 * (2 ** attempt)` after 0-based failed attempt `attempt`);
and a terminal failure outcome (soft or hard) is produced only once all
`max_retries` attempts have run without success. -/
theorem retry_bounded_backoff :
    (∀ (base : ℚ) (maxRetries : ℕ) (obs : ℕ → Locustfile.AttemptObs),
      (Locustfile.post_transaction base maxRetries obs).attemptsMade ≤ maxRetries) ∧
    (∀ (base : ℚ) (maxRetries : ℕ) (obs : ℕ → Locustfile.AttemptObs) (pr : ℕ × ℚ),
      pr ∈ (Locustfile.post_transaction base maxRetries obs).sleeps →
      2 ≤ pr.1 ∧ pr.2 = base * 2 ^ (pr.1 - 2)) ∧
    (∀ (base : ℚ) (maxRetries : ℕ) (obs : ℕ → Locustfile.AttemptObs)
        (oc : Locustfile.Outcome),
      (Locustfile.post_transaction base maxRetries obs).outcome = some oc →
      oc ≠ .success →
      (Locustfile.post_transaction base maxRetries obs).attemptsMade = maxRetries) :=
  ⟨fun base maxRetries obs => postLoop_attempts_le base obs 0 maxRetries,
   fun base maxRetries obs pr hm => postLoop_sleeps base obs 0 maxRetries pr hm,
   fun base maxRetries obs oc hoc hns => postLoop_failure_exhausts base obs 0 maxRetries oc hoc hns⟩

/-- C4 (witness): an execution whose three attempts all raise makes
exactly `3 = max_retries` attempts, ends in a hard failure, and its
sleep before attempt 2 lasts `0.1 * 2^(2-2) = 0.1` seconds. -/
theorem retry_bounded_backoff_witness :
    (Locustfile.post_transaction (1/10) 3 (fun _ => .exn)).attemptsMade ≤ 3 ∧
    (2 ≤ (2 : ℕ) ∧ ((1/10 : ℚ) * 2 ^ 0) = (1/10) * 2 ^ ((2 : ℕ) - 2)) ∧
    (Locustfile.post_transaction (1/10) 3 (fun _ => .exn)).attemptsMade = 3 := by
  have hlog : Locustfile.post_transaction (1/10) 3 (fun _ => .exn)
      = ⟨3, [(2, (1/10 : ℚ) * 2 ^ 0), (3, (1/10 : ℚ) * 2 ^ 1)], some .hardFailure⟩ := rfl
  refine ⟨retry_bounded_backoff.1 (1/10) 3 (fun _ => .exn),
          retry_bounded_backoff.2.1 (1/10) 3 (fun _ => .exn) (2, (1/10 : ℚ) * 2 ^ 0) ?_,
          retry_bounded_backoff.2.2 (1/10) 3 (fun _ => .exn) .hardFailure (by rw [hlog]) (by simp)⟩
  rw [hlog]
  exact List.mem_cons_self ..

/-- C5 (counterexample): the claim says `error_rate = failure_count /
total` on a 0..1 scale; `simple_benchmark.py` with one success and one
failure reports `error_rate = 50` (a percentage), not `1/2`. -/
theorem simple_error_rate_is_percent :
    (SimpleBenchmark.run_benchmark_results 1 1 [] 1).map
        SimpleBenchmark.Results.error_rate = some 50 ∧
    ((1 : ℚ) / ((1 + 1 : ℕ) : ℚ)) = 1/2 ∧ (50 : ℚ) ≠ 1/2 := by
  rw [run_results_one_one_empty]
  norm_num

/-- C5 (amended): `smoke_bench.py`'s reporter computes `success_rate`
and `error_rate` on a 0..1 scale, both `0` when `total = 0` with no
division fault (the summary is total), and `rps * DURATION = ok` when
the duration is non-zero.  `simple_benchmark.py` reports both rates
multiplied by 100 (a 0..100 percent scale) and raises a
`ZeroDivisionError` instead of reporting `0` when `total = 0`. -/
theorem reporter_rates :
    (∀ (ok fail : ℕ) (lat : List ℚ) (d : ℕ),
      (0 ≤ (SmokeBench.summary ok fail lat d).success_rate ∧
        (SmokeBench.summary ok fail lat d).success_rate ≤ 1) ∧
      (0 ≤ (SmokeBench.summary ok fail lat d).error_rate ∧
        (SmokeBench.summary ok fail lat d).error_rate ≤ 1) ∧
      (ok + fail = 0 → (SmokeBench.summary ok fail lat d).success_rate = 0 ∧
        (SmokeBench.summary ok fail lat d).error_rate = 0) ∧
      (d ≠ 0 → (SmokeBench.summary ok fail lat d).rps * d = ok)) ∧
    (∀ (succ failed : ℕ) (lats : List ℚ) (t : ℚ), succ + failed = 0 →
      SimpleBenchmark.run_benchmark_results succ failed lats t = none) ∧
    (∀ (succ failed : ℕ) (lats : List ℚ) (t : ℚ) (r : SimpleBenchmark.Results),
      SimpleBenchmark.run_benchmark_results succ failed lats t = some r →
      r.success_rate = pyRound2 ((succ : ℚ) / ((succ + failed : ℕ) : ℚ) * 100) ∧
      r.error_rate = pyRound2 ((failed : ℚ) / ((succ + failed : ℕ) : ℚ) * 100)) := by
  refine ⟨fun ok fail lat d => ?_, fun succ failed lats t h => ?_, ?_⟩
  · by_cases h : ok + fail = 0
    · have hok : ok = 0 := by omega
      subst hok
      simp [SmokeBench.summary, h]
    · have hq : (0 : ℚ) < (ok : ℚ) + (fail : ℚ) := by
        have : 0 < ok + fail := Nat.pos_of_ne_zero h
        exact_mod_cast this
      have hok : (ok : ℚ) ≤ (ok : ℚ) + (fail : ℚ) := by
        have : (0 : ℚ) ≤ (fail : ℚ) := Nat.cast_nonneg fail
        linarith
      have hfail : (fail : ℚ) ≤ (ok : ℚ) + (fail : ℚ) := by
        have : (0 : ℚ) ≤ (ok : ℚ) := Nat.cast_nonneg ok
        linarith
      refine ⟨⟨?_, ?_⟩, ⟨?_, ?_⟩, fun hc => absurd hc h, fun hd => ?_⟩
      · simp only [SmokeBench.summary, if_neg h]
        positivity
      · simp only [SmokeBench.summary, if_neg h]
        exact div_le_one_of_le₀ hok (le_of_lt hq)
      · simp only [SmokeBench.summary, if_neg h]
        positivity
      · simp only [SmokeBench.summary, if_neg h]
        exact div_le_one_of_le₀ hfail (le_of_lt hq)
      · simp only [SmokeBench.summary, if_neg hd]
        have hdq : (d : ℚ) ≠ 0 := Nat.cast_ne_zero.mpr hd
        field_simp
  · rcases hpb : SimpleBenchmark.percentileBlock lats with _ | ⟨⟨p50, p95, p99, avg⟩⟩ <;>
      simp only [SimpleBenchmark.run_benchmark_results, hpb]
    by_cases ht : t = 0
    · rw [if_pos ht]
    · rw [if_neg ht, if_pos h]
  · intro succ failed lats t r h
    rcases hpb : SimpleBenchmark.percentileBlock lats with _ | ⟨⟨p50, p95, p99, avg⟩⟩ <;>
      simp only [SimpleBenchmark.run_benchmark_results, hpb] at h
    · exact absurd h (by simp)
    · by_cases h1 : t = 0
      · rw [if_pos h1] at h
        exact absurd h (by simp)
      · rw [if_neg h1] at h
        by_cases h2 : succ + failed = 0
        · rw [if_pos h2] at h
          exact absurd h (by simp)
        · rw [if_neg h2] at h
          obtain rfl : _ = r := Option.some.inj h
          exact ⟨rfl, rfl⟩

/-- C5 (witness): at `ok = fail = 1` both smoke-bench rates are `1/2`
(inside `[0, 1]`); `simple_benchmark.py` with no requests yields no
report; and with one success and one failure its reported rates are
`50`, i.e. percent-scaled. -/
theorem reporter_rates_witness :
    (0 ≤ (SmokeBench.summary 1 1 [3] 10).success_rate ∧
      (SmokeBench.summary 1 1 [3] 10).success_rate ≤ 1) ∧
    SimpleBenchmark.run_benchmark_results 0 0 [] 5 = none ∧
    ((⟨2, 1, 1, 1, 50, 50, 0, 0, 0, 0, true, 50⟩ :
        SimpleBenchmark.Results).success_rate
      = pyRound2 ((1 : ℚ) / ((1 + 1 : ℕ) : ℚ) * 100)) :=
  ⟨(reporter_rates.1 1 1 [3] 10).1,
   reporter_rates.2.1 0 0 [] 5 rfl,
   (reporter_rates.2.2 1 1 [] 1 _ run_results_one_one_empty).1⟩

/-- C8: `get_round` classifies a 404 response as a success (as it does
a 200), while every other status is a failure — and the tolerance does
not extend to writes: a `post_transaction` whose attempts all return
404 resolves to a recorded failure. -/
theorem read_404_is_success :
    Locustfile.get_round (.status 404) = .success ∧
    Locustfile.get_round (.status 200) = .success ∧
    (∀ c : ℕ, c ≠ 200 → c ≠ 404 → Locustfile.get_round (.status c) = .softFailure) ∧
    (∀ base : ℚ,
      (Locustfile.post_transaction base 3 (fun _ => .http404)).outcome
        = some .softFailure) := by
  refine ⟨rfl, rfl, fun c h1 h2 => ?_, fun base => rfl⟩
  simp [Locustfile.get_round, h1, h2]

/-- C8 (witness): a 500 read response is a failure, and a write whose
attempts all return 404 is recorded as a failure. -/
theorem read_404_is_success_witness :
    Locustfile.get_round (.status 500) = .softFailure ∧
    (Locustfile.post_transaction (1/10) 3 (fun _ => .http404)).outcome
      = some .softFailure :=
  ⟨read_404_is_success.2.2.1 500 (by norm_num) (by norm_num),
   read_404_is_success.2.2.2 (1/10)⟩

/-- C9: the code guards each metric update with `with threading.Lock():`,
which constructs a fresh lock per call and therefore provides no mutual
exclusion.  Under the code's fresh-lock semantics the interleaving
A-acquire, A-load, B-acquire, B-load, A-store, A-release, B-store,
B-release of two workers each recording one success runs to completion
with `counter = 1`: one recorded observation is lost.  Under the
claimed shared-lock semantics the same schedule is blocked at
B-acquire. -/
theorem fresh_lock_loses_update :
    LockModel.runSched false LockModel.init
        [false, false, true, true, false, false, true, true]
      = some ⟨⟨.done, 0⟩, ⟨.done, 0⟩, 1, none⟩ ∧
    LockModel.runSched true LockModel.init
        [false, false, true, true, false, false, true, true] = none := by
  exact ⟨rfl, rfl⟩

/-- C10: when at least one request was issued, the smoke-bench summary
is internally consistent: `success_rate + error_rate = 1` exactly,
`write_success_pct = 100 * success_rate` exactly, and
`http_request_p95_ms` equals `latency_p95_ms` (both embed the same
expression `sorted(lat)[int(0.95 * len(lat))]`).  Arithmetic is the
exact-rational semantics of the embedding. -/
theorem smoke_rates_consistent (ok fail : ℕ) (lat : List ℚ) (d : ℕ)
    (h : ok + fail ≠ 0) :
    (SmokeBench.summary ok fail lat d).success_rate
        + (SmokeBench.summary ok fail lat d).error_rate = 1 ∧
    (SmokeBench.summary ok fail lat d).write_success_pct
        = 100 * (SmokeBench.summary ok fail lat d).success_rate ∧
    (SmokeBench.summary ok fail lat d).http_request_p95_ms
        = (SmokeBench.summary ok fail lat d).latency_p95_ms := by
  have hq : (ok : ℚ) + (fail : ℚ) ≠ 0 := by
    have : ((ok + fail : ℕ) : ℚ) ≠ 0 := Nat.cast_ne_zero.mpr h
    push_cast at this
    exact this
  refine ⟨?_, ?_, rfl⟩
  · simp only [SmokeBench.summary, if_neg h]
    rw [div_add_div_same, div_self hq]
  · simp only [SmokeBench.summary, if_neg h]
    ring

/-- C10 (witness): with one success and one failure, `success_rate +
error_rate = 1`, `write_success_pct = 100 * success_rate` and the two
p95 fields agree. -/
theorem smoke_rates_consistent_witness :
    (SmokeBench.summary 1 1 [3] 10).success_rate
        + (SmokeBench.summary 1 1 [3] 10).error_rate = 1 ∧
    (SmokeBench.summary 1 1 [3] 10).write_success_pct
        = 100 * (SmokeBench.summary 1 1 [3] 10).success_rate ∧
    (SmokeBench.summary 1 1 [3] 10).http_request_p95_ms
        = (SmokeBench.summary 1 1 [3] 10).latency_p95_ms :=
  smoke_rates_consistent 1 1 [3] 10 (by norm_num)

/-- C7: a worker never starts a new logical operation at or after the
deadline — every executed operation's start time is strictly below the
deadline — and an operation that did start runs to completion: its end
time is its start time plus the operation's full duration, with no
truncation at the deadline. -/
theorem worker_starts_before_deadline (deadline t0 : ℚ) (ops : List Worker.Op)
    (s e : ℚ) (hm : (s, e) ∈ Worker.loopOps deadline t0 ops) :
    s < deadline ∧ ∃ op ∈ ops, e = s + op.dur := by
  induction ops generalizing t0 with
  | nil => simp [Worker.loopOps] at hm
  | cons op rest ih =>
    unfold Worker.loopOps at hm
    by_cases h : t0 < deadline
    · rw [if_pos h] at hm
      rcases List.mem_cons.mp hm with h1 | h2
      · obtain ⟨hs, he⟩ := Prod.mk.injEq .. ▸ h1
        refine ⟨hs ▸ h, op, List.mem_cons_self .., ?_⟩
        rw [← hs] at he
        exact he.symm ▸ rfl
      · obtain ⟨hlt, op2, hop2, hdur⟩ := ih _ h2
        exact ⟨hlt, op2, List.mem_cons_of_mem _ hop2, hdur⟩
    · rw [if_neg h] at hm
      simp at hm

/-- C7 (witness): with deadline `10`, a worker at time `9` starts its
operation of duration `5` (start `9 < 10`) and runs it to completion at
time `14`, past the deadline. -/
theorem worker_starts_before_deadline_witness :
    (9 : ℚ) < 10 ∧ ∃ op ∈ [Worker.Op.mk 5 1], (14 : ℚ) = 9 + op.dur :=
  worker_starts_before_deadline 10 9 [⟨5, 1⟩] 9 14 (by
    unfold Worker.loopOps
    rw [if_pos (by norm_num)]
    norm_num)

end VGS
